import Mathlib

/-
Shallow embedding of discord-better-menus
(src/discord/ext/better_menus/__init__.py).

The Python module defines a paginated-navigation engine:
  * `PageSource` (abstract) with `prepare_page` orchestration,
  * `ListPageSource` (slice-backed) and `AsyncIteratorPageSource`
    (forward-only producer with a page cache),
  * `Paginator`, a `discord.ui.View` subclass holding navigation buttons.

Python integers are modelled as `Int`; Python lists as `List`;
the async iterator as the list of its not-yet-consumed items;
the `_cache` dict as an association list (insertion at the head, first
match wins on lookup — the claims only observe lookup results);
raised `NothingOnThatPage` as an explicit `PrepResult.emptyPage` value.
-/

set_option autoImplicit false

universe u v w

/-- Resolution of one slice bound exactly as Python resolves `l[a:b]`
bounds: a negative bound counts from the end (clamped below at 0), a
non-negative bound is clamped above at the length. -/
def pyIndex (n : Nat) (i : Int) : Nat :=
  if i < 0 then (max 0 ((n : Int) + i)).toNat else min n i.toNat

/-- Python list slicing `l[start:stop]` (step 1). -/
def pySlice {α : Type u} (l : List α) (start stop : Int) : List α :=
  (l.take (pyIndex l.length stop)).drop (pyIndex l.length start)

/-- Ceiling division on `Int`; models Python `math.ceil(a / b)` for `b > 0`. -/
def ceilDiv (a b : Int) : Int := -((-a).ediv b)

/-- Outcome of `PageSource.prepare_page`: either the formatted page, or the
raised `NothingOnThatPage` exception. -/
inductive PrepResult (β : Type w) where
  | ok (r : β)
  | emptyPage
  deriving DecidableEq, Repr

/-- State and behaviour of a `PageSource` instance.  `τ` is the entry type,
`ρ` the subclass-specific state (`entries` for `ListPageSource`; iterator
plus cache for `AsyncIteratorPageSource`), `β` the formatted-page type.
`getPageFn` is the concrete `get_page` override acting on `ρ` (it may
consume the producer / fill the cache but, as in the source, never touches
`current_page`); `formatFn` is the `format_page` override and
`numEntriesFn` the `get_num_entries` override. -/
structure PageSource (τ : Type u) (ρ : Type v) (β : Type w) where
  per_page : Int
  current_page : Int
  rest : ρ
  getPageFn : ρ → Int → List τ × ρ
  formatFn : List τ → β
  numEntriesFn : ρ → Int

/-- `PageSource.get_page` as an operation on the whole source state. -/
def PageSource.get_page {τ : Type u} {ρ : Type v} {β : Type w}
    (s : PageSource τ ρ β) (index : Int) : List τ × PageSource τ ρ β :=
  let r := s.getPageFn s.rest index
  (r.1, { s with rest := r.2 })

/-- `PageSource.prepare_page`: fetch the page; if it is empty raise
`NothingOnThatPage`; otherwise format it, set `current_page := index`, and
return the formatted page. -/
def PageSource.prepare_page {τ : Type u} {ρ : Type v} {β : Type w}
    (s : PageSource τ ρ β) (index : Int) :
    PrepResult β × PageSource τ ρ β :=
  let r := s.get_page index
  if r.1.isEmpty then (.emptyPage, r.2)
  else (.ok (s.formatFn r.1), { r.2 with current_page := index })

/-- `ListPageSource.get_page`: `entries[page*per_page : page*per_page+per_page]`
with Python slice semantics. -/
def listGetPage {τ : Type u} (entries : List τ) (per : Int) (page : Int) : List τ :=
  pySlice entries (page * per) (page * per + per)

/-- `ListPageSource.format_page`: join the entries' string forms with newlines. -/
def listFormat {τ : Type u} [ToString τ] (page : List τ) : String :=
  String.intercalate "\n" (page.map toString)

/-- The `ListPageSource(entries, per_page)` constructor: `current_page`
starts at 0, `get_num_entries` is the length of `entries`. -/
def mkListSource {τ : Type u} [ToString τ] (entries : List τ) (per : Int) :
    PageSource τ (List τ) String where
  per_page := per
  current_page := 0
  rest := entries
  getPageFn := fun es page => (listGetPage es per page, es)
  formatFn := listFormat
  numEntriesFn := fun es => (es.length : Int)

/-- Subclass state of `AsyncIteratorPageSource`: the not-yet-consumed tail
of the producer plus the `_cache` dict. -/
structure AiState (τ : Type u) where
  iterator : List τ
  cache : List (Int × List τ)
  deriving DecidableEq, Repr

/-- Lookup in the modelled `_cache` dict. -/
def cacheLookup {τ : Type u} (k : Int) : List (Int × List τ) → Option (List τ)
  | [] => none
  | e :: rest => if k = e.1 then some e.2 else cacheLookup k rest

/-- The `async for` loop body of `AsyncIteratorPageSource.get_page`: pull
entries one at a time, incrementing `counter`, breaking once
`counter == per_page`; returns the collected data and the remaining
iterator. -/
def pullLoop {τ : Type u} (per : Int) : List τ → Int → List τ × List τ
  | [], _ => ([], [])
  | x :: xs, counter =>
    if counter + 1 = per then ([x], xs)
    else
      let r := pullLoop per xs (counter + 1)
      (x :: r.1, r.2)

/-- `AsyncIteratorPageSource.get_page`: negative pages yield `[]`; cached
pages are returned as-is; otherwise up to `per_page` items are pulled from
the producer's current position and the result is cached under `page`. -/
def aiGetPage {τ : Type u} (per : Int) (st : AiState τ) (page : Int) :
    List τ × AiState τ :=
  if page < 0 then ([], st)
  else
    match cacheLookup page st.cache with
    | some d => (d, st)
    | none =>
      let r := pullLoop per st.iterator 0
      (r.1, { iterator := r.2, cache := (page, r.1) :: st.cache })

/-- The `AsyncIteratorPageSource(iterator, per_page)` constructor:
`current_page` starts at 0 and the cache is empty.  `format_page` and
`get_num_entries` are abstract in the source, so they are parameters. -/
def mkAsyncSource {τ : Type u} {β : Type w} (it : List τ) (per : Int)
    (fmt : List τ → β) (numFn : AiState τ → Int) :
    PageSource τ (AiState τ) β where
  per_page := per
  current_page := 0
  rest := { iterator := it, cache := [] }
  getPageFn := fun st page => aiGetPage per st page
  formatFn := fmt
  numEntriesFn := numFn

/-- `PageGoTo`: the navigation-target enumeration. -/
inductive PageGoTo where
  | FIRST_PAGE
  | LAST_PAGE
  | NEXT_PAGE
  | PREVIOUS_PAGE
  | CURRENT_PAGE
  deriving DecidableEq, Repr

/-- Identity of the five decorated buttons of `Paginator`. -/
inductive BtnId where
  | first
  | prev
  | next
  | last
  | quit
  deriving DecidableEq, Repr

/-- One attached button: which command it is and its `disabled` flag. -/
structure Button where
  id : BtnId
  disabled : Bool
  deriving DecidableEq, Repr

/-- The persistent `disabled` attributes of the five button objects created
by the `@discord.ui.button` decorators.  They outlive `clear_items`: a
later `fill_items` re-adds the same objects, so a flag not reassigned there
(the quit button's) keeps its previous value. -/
structure BtnStates where
  first_d : Bool
  prev_d : Bool
  next_d : Bool
  last_d : Bool
  quit_d : Bool
  deriving DecidableEq, Repr

/-- A navigation-command event's requester, as carried by the Discord
interaction (`interaction.user.id`). -/
structure Interaction where
  userId : Nat
  deriving DecidableEq, Repr

/-- Observable calls into the render/transport collaborator: `ctx.reply`
(first send), `interaction.response.edit_message` with a new page, or the
view-only `edit_message` performed by the quit handler. -/
inductive Effect (β : Type w) where
  | reply (r : β)
  | editMsg (r : β)
  | editView
  deriving DecidableEq, Repr

/-- State of one `Paginator` session.  `message` is the rendered handle
(`None` until the first reply); `items` the currently attached buttons
(`self.children`); `stopped` the flag set by `View.stop()`; `ownerId` the
identity of the actor who started the session (`ctx.author`), which —
notably — no method of the source ever reads. -/
structure Paginator (τ : Type u) (ρ : Type v) (β : Type w) where
  source : PageSource τ ρ β
  allow_first_and_last : Bool
  message : Option Nat
  items : List Button
  btns : BtnStates
  stopped : Bool
  ownerId : Nat
  ctx_interaction : Option Interaction

/-- Set the persistent `disabled` attribute of one button object. -/
def setDisabled (bs : BtnStates) : BtnId → BtnStates
  | .first => { bs with first_d := true }
  | .prev => { bs with prev_d := true }
  | .next => { bs with next_d := true }
  | .last => { bs with last_d := true }
  | .quit => { bs with quit_d := true }

/-- `Paginator.quit`: disable every attached button (all children are
buttons), then `stop()` the view. -/
def Paginator.quit {τ : Type u} {ρ : Type v} {β : Type w}
    (p : Paginator τ ρ β) : Paginator τ ρ β :=
  { p with
    items := p.items.map (fun b => { b with disabled := true }),
    btns := p.items.foldl (fun bs b => setDisabled bs b.id) p.btns,
    stopped := true }

/-- `Paginator.fill_items`: on a single-page collection return at once
(attaching nothing); otherwise attach first/previous/next/last (first and
last only if `allow_first_and_last`) with the computed `disabled` flags,
and finally the quit button, whose `disabled` flag `fill_items` never
assigns. -/
def Paginator.fill_items {τ : Type u} {ρ : Type v} {β : Type w}
    (p : Paginator τ ρ β) (total_entries : Int) : Paginator τ ρ β :=
  if total_entries ≤ p.source.per_page then p
  else
    let visible := (p.source.current_page + 1) * p.source.per_page
    let firstD := decide (visible ≤ p.source.per_page)
    let prevD := decide (p.source.current_page = 0)
    let nextD := decide (total_entries ≤ visible)
    let lastD := decide (total_entries ≤ visible)
    let pre := if p.allow_first_and_last then [Button.mk .first firstD] else []
    let post := if p.allow_first_and_last then [Button.mk .last lastD] else []
    { p with
      items := p.items ++ pre ++ [Button.mk .prev prevD, Button.mk .next nextD]
        ++ post ++ [Button.mk .quit p.btns.quit_d],
      btns :=
        { first_d := if p.allow_first_and_last then firstD else p.btns.first_d,
          prev_d := prevD,
          next_d := nextD,
          last_d := if p.allow_first_and_last then lastD else p.btns.last_d,
          quit_d := p.btns.quit_d } }

/-- `Paginator.get_page_index`: resolve a `PageGoTo` to a page index
relative to the current cursor; `LAST_PAGE` uses
`ceil(get_num_entries() / per_page) - 1`.  No clamping. -/
def Paginator.get_page_index {τ : Type u} {ρ : Type v} {β : Type w}
    (p : Paginator τ ρ β) (page : PageGoTo) : Int :=
  match page with
  | .CURRENT_PAGE => p.source.current_page
  | .NEXT_PAGE => p.source.current_page + 1
  | .PREVIOUS_PAGE => p.source.current_page - 1
  | .LAST_PAGE => ceilDiv (p.source.numEntriesFn p.source.rest) p.source.per_page - 1
  | .FIRST_PAGE => 0

/-- `Paginator.send_page`: fall back to `ctx.interaction` when no
interaction is given; resolve the index; `prepare_page` (a raised
`NothingOnThatPage` propagates, leaving the buttons as they were);
`clear_items` then `fill_items(get_num_entries())`; reply if no message
exists yet, else edit through the interaction if there is one, else do
nothing.  Returns the new state, the emitted render effects, and whether
the exception propagated. -/
def Paginator.send_page {τ : Type u} {ρ : Type v} {β : Type w}
    (p : Paginator τ ρ β) (interaction0 : Option Interaction) (page : PageGoTo) :
    Paginator τ ρ β × List (Effect β) × Bool :=
  let interaction :=
    match interaction0 with
    | some i => some i
    | none => p.ctx_interaction
  let pageIndex := p.get_page_index page
  let pr := p.source.prepare_page pageIndex
  match pr.1 with
  | .emptyPage => ({ p with source := pr.2 }, [], true)
  | .ok formatted =>
    let p1 := { p with source := pr.2, items := [] }
    let total := pr.2.numEntriesFn pr.2.rest
    let p2 := p1.fill_items total
    if p2.message.isNone then
      ({ p2 with message := some 0 }, [.reply formatted], false)
    else
      match interaction with
      | some _ => (p2, [.editMsg formatted], false)
      | none => (p2, [], false)

/-- The five navigation commands a user can trigger on the view. -/
inductive NavCmd where
  | first
  | prev
  | next
  | last
  | quitCmd
  deriving DecidableEq, Repr

/-- Modelled from the spec: the host UI framework ("Command event source",
§6) delivers one button press at a time to the matching decorated callback
and delivers nothing once the view is stopped ("If session is `Quit`,
reject silently", §4.4).  Each callback body is from the source: the four
navigation callbacks call `send_page(interaction, target)` with no check
of the requester's identity, and the quit callback calls `quit()` then
edits the message with the disabled view. -/
def Paginator.dispatchCmd {τ : Type u} {ρ : Type v} {β : Type w}
    (p : Paginator τ ρ β) (cmd : NavCmd) (i : Interaction) :
    Paginator τ ρ β × List (Effect β) × Bool :=
  if p.stopped then (p, [], false)
  else
    match cmd with
    | .first => p.send_page (some i) .FIRST_PAGE
    | .prev => p.send_page (some i) .PREVIOUS_PAGE
    | .next => p.send_page (some i) .NEXT_PAGE
    | .last => p.send_page (some i) .LAST_PAGE
    | .quitCmd => (p.quit, [.editView], false)

/-- The `disabled` flag of the first attached button with the given id. -/
def findBtn : List Button → BtnId → Option Bool
  | [], _ => none
  | b :: rest, i => if b.id = i then some b.disabled else findBtn rest i

/-- Whether an effect is a call to the edit path of the render collaborator. -/
def Effect.isEdit {β : Type w} : Effect β → Bool
  | .editMsg _ => true
  | .editView => true
  | .reply _ => false

/-- Written from the spec's slicing formula (§8): `entries[i*p : min(N,(i+1)*p)]`,
read as the sub-list of positions `[i*p, min(N,(i+1)*p))`; meaningful for
`i ≥ 0`.  Kept separate from `listGetPage` so the two can be compared. -/
def sliceSpec {τ : Type u} (entries : List τ) (per i : Int) : List τ :=
  (entries.take (min entries.length ((i + 1) * per).toNat)).drop (i * per).toNat

/-- A mid-session paginator used to instantiate the theorems: 25 entries,
10 per page, cursor 0, first render done (`message` set), buttons cleared
as `send_page` does before `fill_items`, owner id 1, no `ctx.interaction`. -/
def basePag : Paginator Nat (List Nat) String where
  source := mkListSource (List.range 25) 10
  allow_first_and_last := true
  message := some 0
  items := []
  btns := { first_d := false, prev_d := false, next_d := false,
            last_d := false, quit_d := false }
  stopped := false
  ownerId := 1
  ctx_interaction := none

/-- Dropping `min n s` elements is the same as dropping `s` when the list
has at most `n` elements. -/
theorem drop_min_of_len_le {α : Type u} {l : List α} {n s : Nat}
    (hl : l.length ≤ n) : l.drop (min n s) = l.drop s := by
  rcases le_total n s with h | h
  · rw [min_eq_left h, List.drop_eq_nil_of_le hl,
      List.drop_eq_nil_of_le (le_trans hl h)]
  · rw [min_eq_right h]

/-- `ceilDiv` of a non-negative numerator by a positive denominator is
non-negative. -/
theorem ceilDiv_nonneg {a b : Int} (ha : 0 ≤ a) (hb : 0 < b) :
    0 ≤ ceilDiv a b := by
  have h : (-a).ediv b ≤ 0 / b := Int.ediv_le_ediv hb (by omega)
  simp only [Int.zero_ediv] at h
  simp only [ceilDiv]
  omega

/-- `ceilDiv a b * b` bounds `a` above when `b > 0`. -/
theorem le_ceilDiv_mul {a b : Int} (hb : 0 < b) : a ≤ ceilDiv a b * b := by
  have h : b * ((-a).ediv b) + (-a).emod b = -a := Int.ediv_add_emod (-a) b
  have hr : 0 ≤ (-a).emod b := Int.emod_nonneg _ (ne_of_gt hb)
  show a ≤ -((-a).ediv b) * b
  have hm : -((-a).ediv b) * b = -(b * ((-a).ediv b)) := by ring
  rw [hm]
  linarith

/-- `ListPageSource.get_page` at index `-1` is always empty: the slice is
`entries[-per_page : 0]`, whose stop bound resolves to 0. -/
theorem listGetPage_neg_one {τ : Type u} (entries : List τ) (per : Int) :
    listGetPage entries per (-1) = [] := by
  simp only [listGetPage, pySlice, pyIndex]
  have h1 : (-1 : Int) * per + per = 0 := by ring
  rw [h1]
  simp

/-- `AsyncIteratorPageSource.get_page` returns `[]` and leaves the state
untouched for every negative index. -/
theorem aiGetPage_neg {τ : Type u} (per : Int) (st : AiState τ) (page : Int)
    (h : page < 0) : aiGetPage per st page = ([], st) := by
  simp [aiGetPage, h]

/-- Boolean bridge: `a ≤ b` decides to the negation of `b < a`. -/
theorem decide_le_eq_not_lt {a b : Int} : decide (a ≤ b) = !decide (b < a) := by
  rw [← decide_not]
  exact decide_eq_decide.mpr (by omega)

/-- Boolean bridge: for non-negative `a`, `a = 0` decides to the negation
of `0 < a`. -/
theorem decide_eq_zero_eq_not_pos {a : Int} (h : 0 ≤ a) :
    decide (a = 0) = !decide (0 < a) := by
  rw [← decide_not]
  exact decide_eq_decide.mpr (by omega)

/-- `fill_items` never touches the rendered-message handle. -/
theorem fill_items_message {τ : Type u} {ρ : Type v} {β : Type w}
    (p : Paginator τ ρ β) (t : Int) : (p.fill_items t).message = p.message := by
  unfold Paginator.fill_items
  split <;> rfl

/-- `fill_items` never touches the source. -/
theorem fill_items_source {τ : Type u} {ρ : Type v} {β : Type w}
    (p : Paginator τ ρ β) (t : Int) : (p.fill_items t).source = p.source := by
  unfold Paginator.fill_items
  split <;> rfl

/-- Closed form of the `quit` loop over the children: each persistent flag
ends up true exactly when a button with its id is attached (or it already
was true). -/
theorem foldl_setDisabled_eq (L : List Button) (bs : BtnStates) :
    L.foldl (fun b x => setDisabled b x.id) bs =
      { first_d := bs.first_d || L.any (fun x => decide (x.id = .first)),
        prev_d := bs.prev_d || L.any (fun x => decide (x.id = .prev)),
        next_d := bs.next_d || L.any (fun x => decide (x.id = .next)),
        last_d := bs.last_d || L.any (fun x => decide (x.id = .last)),
        quit_d := bs.quit_d || L.any (fun x => decide (x.id = .quit)) } := by
  induction L generalizing bs with
  | nil => simp
  | cons x xs ih =>
    rw [List.foldl_cons, ih]
    cases hx : x.id <;> simp [setDisabled, hx]

/-- `quit` is idempotent on the session state. -/
theorem quit_idem {τ : Type u} {ρ : Type v} {β : Type w}
    (p : Paginator τ ρ β) : p.quit.quit = p.quit := by
  cases p with
  | mk src allow msg items btns stopped owner ctxi =>
    simp only [Paginator.quit, Paginator.mk.injEq, List.map_map, and_true, true_and]
    constructor
    · apply List.map_congr_left
      intro b _
      rfl
    · simp [foldl_setDisabled_eq, List.any_map, Function.comp_def,
        Bool.or_assoc, Bool.or_self]

/-- C2: for every `PageSource` and index `i`, `prepare_page i` raises
`NothingOnThatPage` exactly when `get_page i` returns an empty sequence;
on a failing call `format_page` is never invoked (the outcome does not
depend on the `format_page` override) and `current_page` keeps its
pre-call value; on a non-failing call `current_page` is set to `i` and the
formatted page is returned. -/
theorem c2_prepare_page_empty_iff {τ : Type u} {ρ : Type v} {β : Type w}
    (s : PageSource τ ρ β) (i : Int) :
    ((s.prepare_page i).1 = PrepResult.emptyPage ↔ (s.getPageFn s.rest i).1 = []) ∧
    ((s.getPageFn s.rest i).1 = [] →
      (s.prepare_page i).2.current_page = s.current_page ∧
      ∀ g : List τ → β,
        ({ s with formatFn := g }).prepare_page i =
          (PrepResult.emptyPage, { s with formatFn := g, rest := (s.getPageFn s.rest i).2 })) ∧
    ((s.getPageFn s.rest i).1 ≠ [] →
      (s.prepare_page i).1 = PrepResult.ok (s.formatFn (s.getPageFn s.rest i).1) ∧
      (s.prepare_page i).2.current_page = i) := by
  by_cases he : (s.getPageFn s.rest i).1 = []
  · simp [PageSource.prepare_page, PageSource.get_page, he]
  · simp [PageSource.prepare_page, PageSource.get_page, he]

theorem c2_witness :
    ((mkListSource ([1, 2, 3] : List Nat) 2).prepare_page 5).1 = PrepResult.emptyPage ∧
    ((mkListSource ([1, 2, 3] : List Nat) 2).prepare_page 5).2.current_page = 0 ∧
    ((mkListSource ([1, 2, 3] : List Nat) 2).prepare_page 1).1 = PrepResult.ok "3" := by
  have h5 := c2_prepare_page_empty_iff (mkListSource ([1, 2, 3] : List Nat) 2) 5
  have h1 := c2_prepare_page_empty_iff (mkListSource ([1, 2, 3] : List Nat) 2) 1
  refine ⟨h5.1.mpr (by decide), (h5.2.1 (by decide)).1, ?_⟩
  have h := (h1.2.2 (by decide)).1
  rw [h]
  rfl

/-- C3: an uncached `get_page` call on a non-negative index pulls from the
producer's current position (never seeking to `index*per_page`) and caches
the result under the requested index; concretely, on a fresh source over a
producer yielding `0..49` with `per_page = 10`, `get_page 2` as the first
call returns `[0..9]` and caches it under index 2. -/
theorem c3_async_nonmonotonic :
    (∀ (τ : Type) (st : AiState τ) (per page : Int), 0 ≤ page →
      cacheLookup page st.cache = none →
      aiGetPage per st page =
        ((pullLoop per st.iterator 0).1,
          { iterator := (pullLoop per st.iterator 0).2,
            cache := (page, (pullLoop per st.iterator 0).1) :: st.cache })) ∧
    aiGetPage 10 (AiState.mk (List.range 50) []) 2 =
      (List.range 10, AiState.mk ((List.range 50).drop 10) [(2, List.range 10)]) := by
  constructor
  · intro τ st per page hpage hlook
    simp [aiGetPage, hlook, Int.not_lt.mpr hpage]
  · decide

theorem c3_witness :
    aiGetPage 10 (AiState.mk ([5, 6] : List Nat) []) 3 =
      ([5, 6], AiState.mk [] [(3, [5, 6])]) := by
  have h := c3_async_nonmonotonic.1 Nat (AiState.mk [5, 6] []) 10 3 (by decide) rfl
  rw [h]
  decide

/-- C4: a `get_page` call on an index present in the cache returns the
cached page with the whole state (producer included) untouched;
concretely, over a producer yielding `0..49` with `per_page = 10`,
`get_page 0` returns `[0..9]`, a repeated `get_page 0` returns the
identical cached list without consuming the producer, and a subsequent
`get_page 1` returns `[10..19]`. -/
theorem c4_async_cache_hit :
    (∀ (τ : Type) (st : AiState τ) (per page : Int) (d : List τ), 0 ≤ page →
      cacheLookup page st.cache = some d →
      aiGetPage per st page = (d, st)) ∧
    ((aiGetPage 10 (AiState.mk (List.range 50) []) 0).1 = List.range 10 ∧
      aiGetPage 10 (aiGetPage 10 (AiState.mk (List.range 50) []) 0).2 0 =
        (List.range 10, (aiGetPage 10 (AiState.mk (List.range 50) []) 0).2) ∧
      (aiGetPage 10 (aiGetPage 10 (AiState.mk (List.range 50) []) 0).2 1).1 =
        (List.range 20).drop 10) := by
  constructor
  · intro τ st per page d hpage hlook
    simp [aiGetPage, hlook, Int.not_lt.mpr hpage]
  · refine ⟨by decide, by decide, by decide⟩

theorem c4_witness :
    aiGetPage 7 (AiState.mk ([9] : List Nat) [(4, [1, 2])]) 4 =
      ([1, 2], AiState.mk [9] [(4, [1, 2])]) := by
  exact c4_async_cache_hit.1 Nat (AiState.mk [9] [(4, [1, 2])]) 7 4 [1, 2]
    (by decide) rfl

/-- C5 is false as stated: `ListPageSource.get_page` does not return the
empty sequence for every negative index.  At `entries = [1,2,3,4,5]`,
`per_page = 2`, index `-2`, the slice `entries[-4:-2]` wraps around as
Python slices do and yields `[2, 3]`. -/
theorem c5_counterexample :
    (-2 : Int) < 0 ∧
    listGetPage ([1, 2, 3, 4, 5] : List Nat) 2 (-2) = [2, 3] ∧
    listGetPage ([1, 2, 3, 4, 5] : List Nat) 2 (-2) ≠ [] := by
  refine ⟨by decide, by decide, by decide⟩

/-- C5 (amended): for `per_page = p > 0`, `ListPageSource.get_page i`
equals the spec's slice `entries[i*p : min(N,(i+1)*p)]` for every `i ≥ 0`
(hence `[]` for `i ≥ ceil(N/p)`), and equals `[]` at `i = -1`; for
`i ≤ -2` Python's wraparound slicing applies and the result may be
non-empty.  `AsyncIteratorPageSource.get_page` does return `[]`, with no
fetch attempted, for every negative index. -/
theorem c5_amended (τ : Type) (entries : List τ) (per i : Int)
    (hper : 0 < per) :
    (0 ≤ i → listGetPage entries per i = sliceSpec entries per i) ∧
    (ceilDiv (entries.length : Int) per ≤ i → listGetPage entries per i = []) ∧
    listGetPage entries per (-1) = [] ∧
    (∀ (st : AiState τ) (j : Int), j < 0 → aiGetPage per st j = ([], st)) := by
  have ha : 0 ≤ i → listGetPage entries per i = sliceSpec entries per i := by
    intro hi
    simp only [listGetPage, pySlice, pyIndex, sliceSpec]
    have h0 : ¬ (i * per < 0) := not_lt.mpr (mul_nonneg hi hper.le)
    have h1 : ¬ (i * per + per < 0) :=
      not_lt.mpr (add_nonneg (mul_nonneg hi hper.le) hper.le)
    rw [if_neg h0, if_neg h1]
    have he : i * per + per = (i + 1) * per := by ring
    rw [he]
    exact drop_min_of_len_le (by rw [List.length_take]; exact min_le_right _ _)
  refine ⟨ha, ?_, listGetPage_neg_one entries per,
    fun st j hj => aiGetPage_neg per st j hj⟩
  intro hib
  have hN : (0 : Int) ≤ (entries.length : Int) := Int.natCast_nonneg _
  have hi : 0 ≤ i := le_trans (ceilDiv_nonneg hN hper) hib
  rw [ha hi]
  have hle : (entries.length : Int) ≤ i * per := by
    have h1 : (entries.length : Int) ≤ ceilDiv (entries.length : Int) per * per :=
      le_ceilDiv_mul hper
    have h2 : ceilDiv (entries.length : Int) per * per ≤ i * per :=
      mul_le_mul_of_nonneg_right hib hper.le
    linarith
  have hlen : entries.length ≤ (i * per).toNat := by
    have := Int.toNat_le_toNat hle
    simpa using this
  unfold sliceSpec
  apply List.drop_eq_nil_of_le
  rw [List.length_take]
  exact le_trans (min_le_right _ _) hlen

theorem c5_witness :
    (0 : Int) < 2 ∧ listGetPage ([1, 2, 3] : List Nat) 2 1 = [3] := by
  refine ⟨by decide, ?_⟩
  have h := (c5_amended Nat [1, 2, 3] 2 1 (by decide)).1 (by decide)
  rw [h]
  decide

/-- C6: after `fill_items total` runs on a multi-page collection
(`total > per_page`) from a cleared view and a non-negative cursor, with
`visible = (current_page+1)*per_page`: previous is enabled iff
`current_page > 0`; next is enabled iff `visible < total`; and when
`allow_first_and_last` is set, first is enabled iff `visible > per_page`
and last is enabled iff `visible < total` (a button is enabled iff its
`disabled` flag is the negation of the condition). -/
theorem c6_fill_items_enablement {τ : Type u} {ρ : Type v} {β : Type w}
    (p : Paginator τ ρ β) (total : Int)
    (hitems : p.items = [])
    (htot : p.source.per_page < total)
    (hcp : 0 ≤ p.source.current_page) :
    findBtn (p.fill_items total).items BtnId.prev =
      some (!decide (0 < p.source.current_page)) ∧
    findBtn (p.fill_items total).items BtnId.next =
      some (!decide ((p.source.current_page + 1) * p.source.per_page < total)) ∧
    (p.allow_first_and_last = true →
      findBtn (p.fill_items total).items BtnId.first =
        some (!decide (p.source.per_page <
          (p.source.current_page + 1) * p.source.per_page)) ∧
      findBtn (p.fill_items total).items BtnId.last =
        some (!decide ((p.source.current_page + 1) * p.source.per_page < total))) := by
  have hno : ¬ (total ≤ p.source.per_page) := not_le.mpr htot
  cases hall : p.allow_first_and_last <;>
    simp [Paginator.fill_items, hno, hall, hitems, findBtn,
      decide_le_eq_not_lt, decide_eq_zero_eq_not_pos hcp]

theorem c6_witness :
    findBtn (basePag.fill_items 25).items BtnId.prev = some true ∧
    findBtn (basePag.fill_items 25).items BtnId.next = some false ∧
    findBtn (basePag.fill_items 25).items BtnId.first = some true ∧
    findBtn (basePag.fill_items 25).items BtnId.last = some false := by
  have h := c6_fill_items_enablement basePag 25 rfl (by decide) (by decide)
  refine ⟨?_, ?_, ?_, ?_⟩
  · rw [h.1]; decide
  · rw [h.2.1]; decide
  · rw [(h.2.2 rfl).1]; decide
  · rw [(h.2.2 rfl).2]; decide

/-- C7 is false as stated: on a single-page collection (`total ≤ per_page`,
here `5 ≤ 10`) `fill_items` returns before attaching anything, so no quit
command is exposed either — the view is left with no buttons at all. -/
theorem c7_counterexample :
    (5 : Int) ≤ basePag.source.per_page ∧
    (basePag.fill_items 5).items = [] ∧
    findBtn (basePag.fill_items 5).items BtnId.quit = none := by
  refine ⟨by decide, by decide, by decide⟩

/-- C7 (amended): when `total ≤ per_page`, `fill_items` attaches nothing
at all — neither navigation commands nor the quit command; when
`total > per_page` the quit command is attached (with its persistent
`disabled` flag), and hence whenever any command is shown the quit command
is present. -/
theorem c7_amended {τ : Type u} {ρ : Type v} {β : Type w}
    (p : Paginator τ ρ β) (total : Int) (hitems : p.items = []) :
    (total ≤ p.source.per_page → (p.fill_items total).items = []) ∧
    (p.source.per_page < total →
      findBtn (p.fill_items total).items BtnId.quit = some p.btns.quit_d) ∧
    (∀ b : BtnId, (findBtn (p.fill_items total).items b).isSome = true →
      (findBtn (p.fill_items total).items BtnId.quit).isSome = true) := by
  by_cases hle : total ≤ p.source.per_page
  · have h1 : (p.fill_items total).items = [] := by
      simp [Paginator.fill_items, hle, hitems]
    refine ⟨fun _ => h1, fun hlt => absurd hle (not_le.mpr hlt), ?_⟩
    intro b hb
    rw [h1] at hb
    simp [findBtn] at hb
  · have h2 : findBtn (p.fill_items total).items BtnId.quit = some p.btns.quit_d := by
      cases hall : p.allow_first_and_last <;>
        simp [Paginator.fill_items, hle, hitems, hall, findBtn]
    exact ⟨fun h => absurd h hle, fun _ => h2, fun b hb => by rw [h2]; rfl⟩

theorem c7_witness :
    findBtn (basePag.fill_items 25).items BtnId.quit = some false := by
  have h := (c7_amended basePag 25 rfl).2.1 (by decide)
  rw [h]
  rfl

/-- C8 is false as stated: driving a publicly constructed
`ListPageSource([1,2,3,4,5], per_page=2)` through the public operation
`prepare_page(-2)` succeeds (the wrapped slice `[2, 3]` is non-empty) and
sets `current_page` to `-2`, a negative value. -/
theorem c8_counterexample :
    ((mkListSource ([1, 2, 3, 4, 5] : List Nat) 2).prepare_page (-2)).1 =
      PrepResult.ok "2\n3" ∧
    ((mkListSource ([1, 2, 3, 4, 5] : List Nat) 2).prepare_page (-2)).2.current_page = -2 ∧
    ¬ (0 ≤ ((mkListSource ([1, 2, 3, 4, 5] : List Nat) 2).prepare_page (-2)).2.current_page) := by
  refine ⟨by decide, by decide, by decide⟩

/-- C8 (amended): `current_page` starts at 0 for both public constructors,
`get_page` never changes it, and `prepare_page` preserves non-negativity
for every index `≥ -1` on both concrete sources; every index a navigation
dispatch can resolve (via `get_page_index`) from a non-negative cursor is
`≥ -1` when `per_page > 0` and the reported entry count is non-negative —
so only a direct `prepare_page` call with an index `≤ -2` can make the
cursor negative. -/
theorem c8_amended :
    (∀ (entries : List Nat) (per : Int),
      (mkListSource entries per).current_page = 0) ∧
    (∀ (τ β : Type) (it : List τ) (per : Int) (fmt : List τ → β)
      (nf : AiState τ → Int), (mkAsyncSource it per fmt nf).current_page = 0) ∧
    (∀ (τ ρ β : Type) (s : PageSource τ ρ β) (i : Int),
      (s.get_page i).2.current_page = s.current_page) ∧
    (∀ (entries : List Nat) (per cp i : Int), 0 ≤ cp → -1 ≤ i →
      0 ≤ (({ mkListSource entries per with
        current_page := cp }).prepare_page i).2.current_page) ∧
    (∀ (τ β : Type) (it : List τ) (cache : List (Int × List τ))
      (per cp i : Int) (fmt : List τ → β) (nf : AiState τ → Int),
      0 ≤ cp → -1 ≤ i →
      0 ≤ (({ mkAsyncSource it per fmt nf with
          current_page := cp
          rest := AiState.mk it cache }).prepare_page i).2.current_page) ∧
    (∀ (τ ρ β : Type) (p : Paginator τ ρ β) (goto : PageGoTo),
      0 < p.source.per_page → 0 ≤ p.source.current_page →
      0 ≤ p.source.numEntriesFn p.source.rest →
      -1 ≤ p.get_page_index goto) := by
  refine ⟨fun entries per => rfl, fun τ β it per fmt nf => rfl,
    fun τ ρ β s i => rfl, ?_, ?_, ?_⟩
  · intro entries per cp i hcp hi
    rcases lt_or_le i 0 with hneg | hpos
    · have hone : i = -1 := by omega
      subst hone
      simp [PageSource.prepare_page, PageSource.get_page, mkListSource,
        listGetPage_neg_one, hcp]
    · by_cases hemp : (listGetPage entries per i).isEmpty
      · simp [PageSource.prepare_page, PageSource.get_page, mkListSource,
          hemp, hcp]
      · simp [PageSource.prepare_page, PageSource.get_page, mkListSource,
          hemp, hpos]
  · intro τ β it cache per cp i fmt nf hcp hi
    rcases lt_or_le i 0 with hneg | hpos
    · simp [PageSource.prepare_page, PageSource.get_page, mkAsyncSource,
        aiGetPage_neg per _ i hneg, hcp]
    · by_cases hemp : (aiGetPage per (AiState.mk it cache) i).1.isEmpty
      · simp [PageSource.prepare_page, PageSource.get_page, mkAsyncSource,
          hemp, hcp]
      · simp [PageSource.prepare_page, PageSource.get_page, mkAsyncSource,
          hemp, hpos]
  · intro τ ρ β p goto hper hcp hnum
    have hcd := ceilDiv_nonneg hnum hper
    cases goto <;> simp [Paginator.get_page_index] <;> omega

theorem c8_witness :
    0 ≤ (({ mkListSource ([1, 2, 3] : List Nat) 2 with
      current_page := 0 }).prepare_page (-1)).2.current_page ∧
    -1 ≤ basePag.get_page_index PageGoTo.LAST_PAGE := by
  refine ⟨c8_amended.2.2.2.1 [1, 2, 3] 2 0 (-1) (by decide) (by decide),
    c8_amended.2.2.2.2.2 Nat (List Nat) String basePag PageGoTo.LAST_PAGE
      (by decide) (by decide) (by decide)⟩

/-- C9: dispatching the quit command on an active session stops it,
disables (without removing) every attached command, performs exactly the
one final disabling render, `quit` is idempotent if called again, and
every subsequent dispatch of any command is a no-op: state, rendered
handle and effects are all unchanged. -/
theorem c9_quit_terminal {τ : Type u} {ρ : Type v} {β : Type w}
    (p : Paginator τ ρ β) (i : Interaction) (hact : p.stopped = false) :
    (p.dispatchCmd NavCmd.quitCmd i).1.stopped = true ∧
    (p.dispatchCmd NavCmd.quitCmd i).1.items =
      p.items.map (fun b => { b with disabled := true }) ∧
    (p.dispatchCmd NavCmd.quitCmd i).2.1 = [Effect.editView] ∧
    (p.dispatchCmd NavCmd.quitCmd i).1.quit = (p.dispatchCmd NavCmd.quitCmd i).1 ∧
    (∀ (cmd : NavCmd) (j : Interaction),
      (p.dispatchCmd NavCmd.quitCmd i).1.dispatchCmd cmd j =
        ((p.dispatchCmd NavCmd.quitCmd i).1, [], false)) := by
  have hd : p.dispatchCmd NavCmd.quitCmd i = (p.quit, [Effect.editView], false) := by
    simp [Paginator.dispatchCmd, hact]
  rw [hd]
  have hstop : p.quit.stopped = true := rfl
  refine ⟨rfl, rfl, rfl, quit_idem p, ?_⟩
  intro cmd j
  simp [Paginator.dispatchCmd, hstop]

theorem c9_witness :
    (basePag.dispatchCmd NavCmd.quitCmd (Interaction.mk 2)).1.stopped = true ∧
    (basePag.dispatchCmd NavCmd.quitCmd (Interaction.mk 2)).1.dispatchCmd
        NavCmd.next (Interaction.mk 2) =
      ((basePag.dispatchCmd NavCmd.quitCmd (Interaction.mk 2)).1, [], false) := by
  have h := c9_quit_terminal basePag (Interaction.mk 2) rfl
  exact ⟨h.1, h.2.2.2.2 NavCmd.next (Interaction.mk 2)⟩

/-- C1 is false as stated: the code performs no authorization check.  On a
session owned by user 1, a navigation dispatch by user 2 changes
`current_page` from 0 to 1 and invokes the render collaborator's edit
path, instead of rejecting with an ephemeral notice and no state change. -/
theorem c1_counterexample :
    (Interaction.mk 2).userId ≠ basePag.ownerId ∧
    basePag.source.current_page = 0 ∧
    (basePag.dispatchCmd NavCmd.next (Interaction.mk 2)).1.source.current_page = 1 ∧
    ((basePag.dispatchCmd NavCmd.next (Interaction.mk 2)).2.1.any Effect.isEdit) = true := by
  refine ⟨by decide, by decide, by decide, by decide⟩

/-- C1 (amended): dispatch performs no authorization at all — the outcome
of any command dispatched by any requester is identical to the outcome of
the same command dispatched by the session owner; a non-owner's navigation
mutates state and renders exactly as the owner's would, and no
"not your session" notice exists. -/
theorem c1_amended {τ : Type u} {ρ : Type v} {β : Type w}
    (p : Paginator τ ρ β) (cmd : NavCmd) (req : Interaction) :
    p.dispatchCmd cmd req = p.dispatchCmd cmd (Interaction.mk p.ownerId) := by
  cases cmd <;> rfl

/-- C10: when a first render already happened (`message` is set) but no
interaction is available (argument `None` and `ctx.interaction` `None`),
`send_page` still mutates state — `current_page` is set to the resolved
index by `prepare_page` and the button set is rebuilt — yet it emits
neither a send nor an edit, so the newly prepared page is never rendered
(the rendered handle is unchanged). -/
theorem c10_send_page_unrendered {τ : Type u} {ρ : Type v} {β : Type w}
    (p : Paginator τ ρ β) (goto : PageGoTo) (m : Nat)
    (hmsg : p.message = some m)
    (hctx : p.ctx_interaction = none)
    (hpage : ((p.source.get_page (p.get_page_index goto)).1).isEmpty = false) :
    (p.send_page none goto).2.1 = [] ∧
    (p.send_page none goto).2.2 = false ∧
    (p.send_page none goto).1.source.current_page = p.get_page_index goto ∧
    (p.send_page none goto).1.message = p.message ∧
    (p.send_page none goto).1.items =
      (({ p with
          source := (p.source.prepare_page (p.get_page_index goto)).2
          items := [] }).fill_items
        ((p.source.prepare_page (p.get_page_index goto)).2.numEntriesFn
          (p.source.prepare_page (p.get_page_index goto)).2.rest)).items := by
  have hpr : (p.source.prepare_page (p.get_page_index goto)).1 =
      PrepResult.ok (p.source.formatFn (p.source.get_page (p.get_page_index goto)).1) := by
    simp [PageSource.prepare_page, hpage]
  have hcp : (p.source.prepare_page (p.get_page_index goto)).2.current_page =
      p.get_page_index goto := by
    simp [PageSource.prepare_page, hpage]
  simp [Paginator.send_page, hpr, hctx, hmsg, fill_items_message,
    fill_items_source, hcp]

theorem c10_witness :
    (basePag.send_page none PageGoTo.NEXT_PAGE).2.1 = [] ∧
    (basePag.send_page none PageGoTo.NEXT_PAGE).1.source.current_page = 1 ∧
    (basePag.send_page none PageGoTo.NEXT_PAGE).1.message = some 0 := by
  have h := c10_send_page_unrendered basePag PageGoTo.NEXT_PAGE 0 rfl rfl (by decide)
  refine ⟨h.1, ?_, ?_⟩
  · rw [h.2.2.1]
    decide
  · rw [h.2.2.2.1]
    rfl
